import Mathlib

/-!
Verification of the worker registry in `src/system.rs` (Filecoin-webapi).

The registry (`ServState`) maps 64-bit handles to job records (`WorkerProp`).
Handles come from a global atomic counter (`WORKER_TOKEN`); each record owns
the receiving end of a one-shot `std::sync::mpsc` channel on which the
background thread reports its result.  We embed the registry state and its
operations (`enqueue`, `get`, `remove`, `debug_info`, `job_available`, `new`)
as pure Lean functions: the mutable `HashMap` becomes an association list,
the atomic counter is passed explicitly, machine integers are `Nat` reduced
mod `2^64` where the source wraps, and panics become `Option.none`.
-/

/-- JSON payloads (`serde_json::Value`).  The registry stores and returns
these opaquely, never inspecting them, so composite JSON (arrays/objects)
is not needed for any property below. -/
inductive Value
  | null
  | bool (b : Bool)
  | num (n : Int)
  | str (s : String)
deriving DecidableEq, Repr

/-- `std::sync::mpsc::TryRecvError`: a non-blocking receive either finds the
queue empty with the sender still alive, or finds it empty after every sender
was dropped. -/
inductive TryRecvError
  | Empty
  | Disconnected
deriving DecidableEq, Repr

/-- State of the receiving end of an mpsc channel (`Receiver<Value>`):
the queue of not-yet-received messages, and whether a sender is still alive.
For the registry's channels the job sends at most one message ever. -/
structure Receiver where
  msgs : List Value
  connected : Bool
deriving DecidableEq, Repr

/-- `Receiver::try_recv`: non-blocking.  Returns the oldest queued message
(consuming it), `Err(Empty)` when the queue is empty but a sender is alive,
`Err(Disconnected)` when the queue is empty and every sender is gone. -/
def Receiver.try_recv (r : Receiver) : Except TryRecvError Value × Receiver :=
  match r.msgs with
  | v :: rest => (Except.ok v, { r with msgs := rest })
  | [] =>
    if r.connected then (Except.error TryRecvError.Empty, r)
    else (Except.error TryRecvError.Disconnected, r)

/-- Modelled from the spec: the result protocol of `src/polling.rs`, which is
not under `src/`; its variants are reconstructed from their uses in
`src/system.rs` and the tagged-outcome table in spec §6 (`NotFound` there is
`NotExist` in the code). -/
inductive PollingError
  | NotExist
  | Disconnected
deriving DecidableEq, Repr

/-- Modelled from the spec: the `PollingState` outcome type of
`src/polling.rs` (missing from `src/`), reconstructed from its uses in
`src/system.rs` and spec §6: `Started(handle)`, `Pending`, `Done(value)`,
`Removed`, `Error(e)`. -/
inductive PollingState
  | Started (token : Nat)
  | Pending
  | Done (value : Value)
  | Removed
  | Error (e : PollingError)
deriving DecidableEq, Repr

/-- Modelled from the spec: `crate::config::Config` is not under `src/`;
§6 specifies the two fields the registry reads: `allow_tokens`
(`allowedTokens: set<string>`) and `job_limits`
(`kindLimits: map<string,uint64>`). -/
structure Config where
  allow_tokens : List String
  job_limits : List (String × Nat)
deriving DecidableEq, Repr

/-- Per-job record (`WorkerProp`): display name, the owned background
thread's id (the `JoinHandle<()>`, kept only so `remove` can
`pthread_cancel` it), the result-channel receiver, and two timestamps
(modelled as `Nat` instants). -/
structure WorkerProp where
  name : String
  handle : Nat
  receiver : Receiver
  create_time : Nat
  last_query : Nat
deriving DecidableEq, Repr

/-- `WorkerProp::new`: both timestamps start at "now". -/
def WorkerProp.new (name : String) (handle : Nat) (receiver : Receiver)
    (now : Nat) : WorkerProp :=
  { name := name, handle := handle, receiver := receiver,
    create_time := now, last_query := now }

/-- Lookup in a `HashMap<u64, α>` modelled as an association list. -/
def mapLookup {α : Type} (m : List (Nat × α)) (k : Nat) : Option α :=
  (m.find? (fun p => p.1 == k)).map Prod.snd

/-- `HashMap::insert`: binds `k` to `v`, replacing any previous binding. -/
def mapInsert {α : Type} (m : List (Nat × α)) (k : Nat) (v : α) :
    List (Nat × α) :=
  (k, v) :: m.filter (fun p => p.1 != k)

/-- `HashMap::remove`: drops the binding of `k`, if any. -/
def mapErase {α : Type} (m : List (Nat × α)) (k : Nat) : List (Nat × α) :=
  m.filter (fun p => p.1 != k)

/-- `2^64`: the modulus of the `u64` handle space (`WORKER_TOKEN` is an
`AtomicU64` and `fetch_add` wraps). -/
def u64Mod : Nat := 2 ^ 64

/-- The registry (`ServState`): the handle → record map plus the read-only
configuration.  In the source the whole struct sits behind one
`Arc<Mutex<_>>`, so every operation below is a whole-state transformer. -/
structure ServState where
  workers : List (Nat × WorkerProp)
  config : Config
deriving DecidableEq, Repr

/-- `ServState::new`.  The source asserts that the global `WORKER_INIT`
flag was `false` before atomically setting it (`assert_eq!(WORKER_INIT.swap
(true), false)`): a second construction panics.  The flag is passed
explicitly; `none` is the panic. -/
def ServState.new (config : Config) (worker_init : Bool) :
    Option (ServState × Bool) :=
  if worker_init then none
  else some ({ workers := [], config := config }, true)

/-- `ServState::verify_token`: membership in the configured allow-list. -/
def ServState.verify_token (s : ServState) (token : String) : Bool :=
  s.config.allow_tokens.contains token

/-- `ServState::job_num`: how many registered records carry this display
name (`workers.iter().filter(|(_, prop)| prop.name == name).count()`). -/
def ServState.job_num (s : ServState) (name : String) : Nat :=
  (s.workers.filter (fun p => p.2.name == name)).length

/-- Lookup in the `HashMap<String, u64>` of configured job limits. -/
def limitsLookup (m : List (String × Nat)) (k : String) : Option Nat :=
  (m.find? (fun p => p.1 == k)).map Prod.snd

/-- `ServState::job_limit`: the configured limit for this name, defaulting
to `u64::max_value()` when the name is absent. -/
def ServState.job_limit (s : ServState) (name : String) : Nat :=
  (limitsLookup s.config.job_limits name).getD (u64Mod - 1)

/-- `ServState::job_available`: `job_num < job_limit`. -/
def ServState.job_available (s : ServState) (name : String) : Bool :=
  decide (s.job_num name < s.job_limit name)

/-- `ServState::enqueue`.  The source reads the global
`WORKER_TOKEN.fetch_add(1, SeqCst)`; here the counter value `ctr` is passed
in and the post-increment value is returned alongside.  `fetch_add` yields
the old value as the token and stores `old + 1` wrapped to 64 bits. -/
def ServState.enqueue (s : ServState) (ctr : Nat) (prop : WorkerProp) :
    PollingState × ServState × Nat :=
  let token := ctr % u64Mod
  (PollingState.Started token,
   { s with workers := mapInsert s.workers token prop },
   (ctr + 1) % u64Mod)

/-- `ServState::get` (the poll operation).  Looks the record up; if found,
stamps `last_query := now` and does one non-blocking `try_recv`:
`Ok(r) ↦ Done(r)`, `Empty ↦ Pending`, `Disconnected ↦ Error(Disconnected)`.
Afterwards, exactly in the `Done` case, the record is removed. -/
def ServState.get (s : ServState) (token : Nat) (now : Nat) :
    PollingState × ServState :=
  match mapLookup s.workers token with
  | none => (PollingState.Error PollingError.NotExist, s)
  | some prop =>
    let rr := prop.receiver.try_recv
    let prop' : WorkerProp := { prop with last_query := now, receiver := rr.2 }
    let s' : ServState := { s with workers := mapInsert s.workers token prop' }
    match rr.1 with
    | Except.ok r =>
      (PollingState.Done r, { s' with workers := mapErase s'.workers token })
    | Except.error TryRecvError.Empty => (PollingState.Pending, s')
    | Except.error TryRecvError.Disconnected =>
      (PollingState.Error PollingError.Disconnected, s')

/-- `ServState::remove`.  If present, the record is removed and
`pthread_cancel` is issued against its thread; the third component records
the cancelled thread id (`none` = no cancellation was issued). -/
def ServState.remove (s : ServState) (token : Nat) :
    PollingState × ServState × Option Nat :=
  match mapLookup s.workers token with
  | some prop =>
    (PollingState.Removed,
     { s with workers := mapErase s.workers token },
     some prop.handle)
  | none => (PollingState.Error PollingError.NotExist, s, none)

/-- Rendering of a `try_recv` result, approximating Rust's `Debug` text. -/
def renderTryRecv : Except TryRecvError Value × Receiver → String
  | (Except.ok (Value.null), _) => "Ok(Null)"
  | (Except.ok (Value.bool b), _) => "Ok(Bool(" ++ toString b ++ "))"
  | (Except.ok (Value.num n), _) => "Ok(Number(" ++ toString n ++ "))"
  | (Except.ok (Value.str s), _) => "Ok(String(" ++ s ++ "))"
  | (Except.error TryRecvError.Empty, _) => "Err(Empty)"
  | (Except.error TryRecvError.Disconnected, _) => "Err(Disconnected)"

/-- Structural rendering of the registry, approximating
`format!("\x7b:#?\x7d", self)`; the exact text is not load-bearing for any
claim, only the channel reads `debug_info` performs are. -/
def ServState.render (s : ServState) : String :=
  "ServState workers=[" ++
    String.join (s.workers.map (fun p => toString p.1 ++ ":" ++ p.2.name ++ ";"))
    ++ "]"

/-- `ServState::debug_info`.  Formats the whole state, then for every record
formats the result of `prop.receiver.try_recv()` — a CONSUMING non-blocking
read (`mpsc::Receiver::try_recv` takes `&self` and dequeues via interior
mutability, so this compiles under the `&self` borrow and still eats
messages).  The returned state records the consumption. -/
def ServState.debug_info (s : ServState) : String × ServState :=
  let header := s.render ++ "\n"
  let lines := s.workers.map
    (fun p => toString p.1 ++ ": " ++ renderTryRecv (p.2.receiver.try_recv) ++ "\n")
  let workers' := s.workers.map
    (fun p => (p.1, { p.2 with receiver := (p.2.receiver.try_recv).2 }))
  (header ++ String.join lines, { s with workers := workers' })

/-- A process snapshot: the global `WORKER_TOKEN` counter plus the registry
(the registry lock serializes the operations, so a run is a sequence). -/
structure World where
  counter : Nat
  serv : ServState
deriving DecidableEq, Repr

/-- One serialized registry operation (the four handlers of `system.rs`
that touch `ServState`). -/
inductive Op
  | enqueue (prop : WorkerProp)
  | get (token : Nat) (now : Nat)
  | remove (token : Nat)
  | debug
deriving DecidableEq, Repr

/-- What an operation returns to its caller. -/
inductive Output
  | poll (st : PollingState)
  | dbg (s : String)
deriving DecidableEq, Repr

/-- Execute one operation under the registry lock. -/
def World.step (w : World) : Op → Output × World
  | Op.enqueue prop =>
    let r := w.serv.enqueue w.counter prop
    (Output.poll r.1, ⟨r.2.2, r.2.1⟩)
  | Op.get token now =>
    let r := w.serv.get token now
    (Output.poll r.1, ⟨w.counter, r.2⟩)
  | Op.remove token =>
    let r := w.serv.remove token
    (Output.poll r.1, ⟨w.counter, r.2.1⟩)
  | Op.debug =>
    let r := w.serv.debug_info
    (Output.dbg r.1, ⟨w.counter, r.2⟩)

/-- Did this op/output pair observe `Done` for handle `tok`?  (Only a poll
carries a `Done`, and the polled handle is named in the op.) -/
def isDoneAt (tok : Nat) : Op → Output → Bool
  | Op.get t _, Output.poll (PollingState.Done _) => t == tok
  | _, _ => false

/-- How many operations of the run observe `Done` for handle `tok`. -/
def doneCount (w : World) (tok : Nat) : List Op → Nat
  | [] => 0
  | op :: ops =>
    let r := w.step op
    (if isDoneAt tok op r.1 then 1 else 0) + doneCount r.2 tok ops

/-- Number of `enqueue` operations in a run. -/
def countEnq : List Op → Nat
  | [] => 0
  | Op.enqueue _ :: ops => countEnq ops + 1
  | _ :: ops => countEnq ops

/-- Every registered handle is below the counter: the invariant the token
allocator maintains until it wraps. -/
def keysBelow (s : ServState) (c : Nat) : Prop :=
  ∀ p ∈ s.workers, p.1 < c

/-- Handle `tok` can never again deliver a result: it is either absent or
its channel queue is empty. -/
def noResultAt (s : ServState) (tok : Nat) : Prop :=
  ∀ p, mapLookup s.workers tok = some p → p.receiver.msgs = []

/-- A run is wrap-free and cannot re-issue `tok`: either it enqueues
nothing, or `tok` is already below the counter and the counter will not
wrap within the run. -/
def enqSafe (c tok : Nat) (ops : List Op) : Prop :=
  countEnq ops = 0 ∨ (tok < c ∧ c + countEnq ops ≤ u64Mod)

/-- The process starts with `WORKER_TOKEN = 0` and, after the one permitted
`ServState::new`, an empty registry. -/
def World.init (config : Config) : World :=
  ⟨0, { workers := [], config := config }⟩

/-- The world after `n` back-to-back enqueues of `prop` from a fresh
process. -/
def iterEnqueue (config : Config) (prop : WorkerProp) : Nat → World
  | 0 => World.init config
  | n + 1 => ((iterEnqueue config prop n).step (Op.enqueue prop)).2

/-- The handle the `i`-th enqueue (0-indexed) hands back, read off the
`Started` output. -/
def issuedHandle (config : Config) (prop : WorkerProp) (i : Nat) : Nat :=
  match ((iterEnqueue config prop i).step (Op.enqueue prop)).1 with
  | Output.poll (PollingState.Started t) => t
  | _ => 0

/-- A throwaway configuration for concrete instances. -/
def cfg0 : Config := { allow_tokens := [], job_limits := [] }

/-- A concrete job record mirroring `test_polling`'s `"Test"` job. -/
def prop0 : WorkerProp :=
  WorkerProp.new "Test" 7 { msgs := [], connected := true } 0

/-- A record whose job already sent `"Ok!!!"` and exited (sender dropped
after the one send). -/
def propDone : WorkerProp :=
  WorkerProp.new "Test" 7 { msgs := [Value.str "Ok!!!"], connected := false } 0

/-- A still-running job of kind `"k"`. -/
def propK : WorkerProp :=
  WorkerProp.new "k" 3 { msgs := [], connected := true } 0

/-- A registry holding `u64::MAX` distinct jobs of kind `"k"`, with no
configured limits: the extreme point of the default-limit behaviour. -/
def sBig : ServState :=
  { workers := (List.range (u64Mod - 1)).map (fun i => (i, propK)),
    config := cfg0 }

/-! ## Association-list map lemmas -/

theorem find_filter_ne {α : Type} (m : List (Nat × α)) (k k' : Nat)
    (h : k' ≠ k) :
    (m.filter (fun p => p.1 != k)).find? (fun p => p.1 == k') =
      m.find? (fun p => p.1 == k') := by
  induction m with
  | nil => rfl
  | cons a t ih =>
    have hkk' : k ≠ k' := fun hk => h hk.symm
    by_cases hak : a.1 = k
    · have h1 : (a.1 != k) = false := by simp [hak]
      have h2 : (a.1 == k') = false := by simp [hak, hkk']
      simp [List.filter_cons, List.find?_cons, h1, h2, ih]
    · have h1 : (a.1 != k) = true := by simp [hak]
      by_cases hak' : a.1 = k'
      · have h2 : (a.1 == k') = true := by simp [hak']
        simp [List.filter_cons, List.find?_cons, h1, h2]
      · have h2 : (a.1 == k') = false := by simp [hak']
        simp [List.filter_cons, List.find?_cons, h1, h2, ih]

theorem mapLookup_mapInsert_self {α : Type} (m : List (Nat × α)) (k : Nat)
    (v : α) : mapLookup (mapInsert m k v) k = some v := by
  simp [mapLookup, mapInsert, List.find?]

theorem mapLookup_mapInsert_ne {α : Type} (m : List (Nat × α)) (k k' : Nat)
    (v : α) (h : k' ≠ k) :
    mapLookup (mapInsert m k v) k' = mapLookup m k' := by
  have hne : (k == k') = false := by
    simp
    exact fun hk => h hk.symm
  simp [mapLookup, mapInsert, List.find?, hne, find_filter_ne m k k' h]

theorem mapLookup_mapErase_self {α : Type} (m : List (Nat × α)) (k : Nat) :
    mapLookup (mapErase m k) k = none := by
  have : (m.filter (fun p => p.1 != k)).find? (fun p => p.1 == k) = none := by
    rw [List.find?_eq_none]
    intro x hx
    have := (List.mem_filter.mp hx).2
    simpa using this
  simp [mapLookup, mapErase, this]

theorem mapLookup_mapErase_ne {α : Type} (m : List (Nat × α)) (k k' : Nat)
    (h : k' ≠ k) : mapLookup (mapErase m k) k' = mapLookup m k' := by
  simp [mapLookup, mapErase, find_filter_ne m k k' h]

theorem mapLookup_mapVal {α β : Type} (g : α → β) (m : List (Nat × α))
    (k : Nat) :
    mapLookup (m.map (fun p => (p.1, g p.2))) k = (mapLookup m k).map g := by
  induction m with
  | nil => rfl
  | cons a t ih =>
    by_cases hak : a.1 = k
    · have h2 : (a.1 == k) = true := by simp [hak]
      simp [mapLookup, List.find?_cons, h2]
    · have h2 : (a.1 == k) = false := by simp [hak]
      simpa [mapLookup, List.find?_cons, h2] using ih

theorem mapInsert_length_of_fresh {α : Type} (m : List (Nat × α)) (k : Nat)
    (v : α) (h : mapLookup m k = none) :
    (mapInsert m k v).length = m.length + 1 := by
  have hfind : m.find? (fun p => p.1 == k) = none := by
    simpa [mapLookup] using h
  have hall := List.find?_eq_none.mp hfind
  have : m.filter (fun p => p.1 != k) = m := by
    rw [List.filter_eq_self]
    intro a ha
    simpa using hall a ha
  simp [mapInsert, this]

/-! ## Simple operation characterizations -/

/-- Polling an absent handle leaves the whole state untouched. -/
theorem get_absent (s : ServState) (tok now : Nat)
    (h : mapLookup s.workers tok = none) :
    s.get tok now = (PollingState.Error PollingError.NotExist, s) := by
  simp [ServState.get, h]

/-! ## Claims -/

/-- Claim C2: when `h` is present, `remove(h)` returns `Removed`, erases the
record, and issues the forced termination (`pthread_cancel`) against the
job's thread, so a subsequent `poll(h)` returns `Error(NotExist)`; when `h`
is absent, `remove(h)` returns `Error(NotExist)` and changes nothing — no
state change and no cancellation. -/
theorem claim_C2 (s : ServState) (tok now : Nat) (prop : WorkerProp)
    (hp : mapLookup s.workers tok = some prop)
    (s2 : ServState) (tok2 : Nat)
    (ha : mapLookup s2.workers tok2 = none) :
    (s.remove tok).1 = PollingState.Removed ∧
    (s.remove tok).2.2 = some prop.handle ∧
    mapLookup (s.remove tok).2.1.workers tok = none ∧
    ((s.remove tok).2.1.get tok now).1 =
      PollingState.Error PollingError.NotExist ∧
    s2.remove tok2 = (PollingState.Error PollingError.NotExist, s2, none) := by
  have herase : mapLookup (mapErase s.workers tok) tok = none :=
    mapLookup_mapErase_self s.workers tok
  refine ⟨?_, ?_, ?_, ?_, ?_⟩
  · simp [ServState.remove, hp]
  · simp [ServState.remove, hp]
  · simpa [ServState.remove, hp] using herase
  · simp [ServState.remove, hp, ServState.get, herase]
  · simp [ServState.remove, ha]

/-- Witness for C2 at a concrete registry. -/
theorem claim_C2_witness :
    ((⟨[(0, prop0)], cfg0⟩ : ServState).remove 0).1 = PollingState.Removed ∧
    ((⟨[(0, prop0)], cfg0⟩ : ServState).remove 0).2.2 = some prop0.handle ∧
    mapLookup ((⟨[(0, prop0)], cfg0⟩ : ServState).remove 0).2.1.workers 0 =
      none ∧
    (((⟨[(0, prop0)], cfg0⟩ : ServState).remove 0).2.1.get 0 5).1 =
      PollingState.Error PollingError.NotExist ∧
    (⟨[], cfg0⟩ : ServState).remove 3 =
      (PollingState.Error PollingError.NotExist, ⟨[], cfg0⟩, none) :=
  claim_C2 ⟨[(0, prop0)], cfg0⟩ 0 5 prop0 (by decide) ⟨[], cfg0⟩ 3 (by decide)

/-- Claim C4: polling a handle that is not in the registry returns
`Error(NotExist)` and performs no mutation at all: the returned state is the
input state, registry map and records included. -/
theorem claim_C4 (s : ServState) (tok now : Nat)
    (h : mapLookup s.workers tok = none) :
    s.get tok now = (PollingState.Error PollingError.NotExist, s) :=
  get_absent s tok now h

/-- Witness for C4 on a nonempty concrete registry. -/
theorem claim_C4_witness :
    (⟨[(0, prop0)], cfg0⟩ : ServState).get 9 5 =
      (PollingState.Error PollingError.NotExist,
       (⟨[(0, prop0)], cfg0⟩ : ServState)) :=
  claim_C4 ⟨[(0, prop0)], cfg0⟩ 9 5 (by decide)

/-- Claim C9: the first construction of the registry succeeds and yields an
empty worker map; a second construction in the same process (the init flag
already set) panics instead of returning an instance. -/
theorem claim_C9 (config : Config) :
    ServState.new config false =
      some ({ workers := [], config := config }, true) ∧
    ServState.new config true = none := by
  simp [ServState.new]

/-- Claim C3: polling a present handle whose channel is empty and whose
sender is gone yields `Error(Disconnected)`, and the record stays in the
registry (only its `last_query` stamp changes) — unlike the `Done` case. -/
theorem claim_C3 (s : ServState) (tok now : Nat) (prop : WorkerProp)
    (hp : mapLookup s.workers tok = some prop)
    (hmsgs : prop.receiver.msgs = [])
    (hconn : prop.receiver.connected = false) :
    (s.get tok now).1 = PollingState.Error PollingError.Disconnected ∧
    mapLookup (s.get tok now).2.workers tok =
      some { prop with last_query := now } := by
  have hrecv : prop.receiver.try_recv =
      (Except.error TryRecvError.Disconnected, prop.receiver) := by
    simp [Receiver.try_recv, hmsgs, hconn]
  constructor
  · simp [ServState.get, hp, hrecv]
  · simp [ServState.get, hp, hrecv, mapLookup_mapInsert_self]

/-- Witness for C3: a job that died without sending. -/
theorem claim_C3_witness :
    ((⟨[(4, WorkerProp.new "Test" 7 { msgs := [], connected := false } 0)],
        cfg0⟩ : ServState).get 4 9).1 =
      PollingState.Error PollingError.Disconnected ∧
    mapLookup
      ((⟨[(4, WorkerProp.new "Test" 7 { msgs := [], connected := false } 0)],
          cfg0⟩ : ServState).get 4 9).2.workers 4 =
      some { WorkerProp.new "Test" 7 { msgs := [], connected := false } 0 with
             last_query := 9 } :=
  claim_C3 _ 4 9 _ (by decide) (by decide) (by decide)

/-- Claim C6: from any registry state whose keys all lie below the (not yet
wrapped) counter, `enqueue` returns `Started` with the freshly allocated
handle, registers the record under it, grows the map by exactly one entry,
and advances the counter. -/
theorem claim_C6 (s : ServState) (ctr : Nat) (prop : WorkerProp)
    (hc : ctr < u64Mod) (hk : keysBelow s ctr) :
    (s.enqueue ctr prop).1 = PollingState.Started ctr ∧
    mapLookup (s.enqueue ctr prop).2.1.workers ctr = some prop ∧
    (s.enqueue ctr prop).2.1.workers.length = s.workers.length + 1 ∧
    (s.enqueue ctr prop).2.2 = (ctr + 1) % u64Mod := by
  have hmod : ctr % u64Mod = ctr := Nat.mod_eq_of_lt hc
  have hfresh : mapLookup s.workers ctr = none := by
    have hfind : s.workers.find? (fun p => p.1 == ctr) = none :=
      List.find?_eq_none.mpr (fun p hp => by simp [Nat.ne_of_lt (hk p hp)])
    simp [mapLookup, hfind]
  refine ⟨?_, ?_, ?_, rfl⟩
  · simp [ServState.enqueue, hmod]
  · simp [ServState.enqueue, hmod, mapLookup_mapInsert_self]
  · simpa [ServState.enqueue, hmod] using
      mapInsert_length_of_fresh s.workers ctr prop hfresh

/-- Witness for C6 on a one-job registry. -/
theorem claim_C6_witness :
    ((⟨[(0, prop0)], cfg0⟩ : ServState).enqueue 1 prop0).1 =
      PollingState.Started 1 ∧
    mapLookup ((⟨[(0, prop0)], cfg0⟩ : ServState).enqueue 1 prop0).2.1.workers
      1 = some prop0 ∧
    ((⟨[(0, prop0)], cfg0⟩ : ServState).enqueue 1 prop0).2.1.workers.length =
      (⟨[(0, prop0)], cfg0⟩ : ServState).workers.length + 1 ∧
    ((⟨[(0, prop0)], cfg0⟩ : ServState).enqueue 1 prop0).2.2 =
      (1 + 1) % u64Mod :=
  claim_C6 ⟨[(0, prop0)], cfg0⟩ 1 prop0 (by decide) (by simp [keysBelow])

/-- C8 counterexample: with no configured limit, `job_limit` is
`u64::MAX = 2^64 - 1`, not "unbounded": at `count = u64::MAX` registered
jobs of kind `"k"`, `job_available "k"` is `false`, refuting "available is
always true regardless of count". -/
theorem claim_C8_counterexample : sBig.job_available "k" = false := by
  have hfil : ((List.range (u64Mod - 1)).map (fun i => (i, propK))).filter
      (fun p => p.2.name == "k") =
      (List.range (u64Mod - 1)).map (fun i => (i, propK)) := by
    apply List.filter_eq_self.mpr
    intro a ha
    obtain ⟨i, _, rfl⟩ := List.mem_map.mp ha
    simp [propK, WorkerProp.new]
  have hnum : sBig.job_num "k" = u64Mod - 1 := by
    simp [ServState.job_num, sBig, hfil]
  have hlim : sBig.job_limit "k" = u64Mod - 1 := by
    simp [ServState.job_limit, sBig, cfg0, limitsLookup]
  simp [ServState.job_available, hnum, hlim]

/-- Claim C8 (amended): `available(k)` is exactly `count(k) < limit(k)`;
when `k` has no configured limit, the limit defaults to `u64::MAX`
(`2^64 - 1`), so `available(k)` holds iff `count(k) < 2^64 - 1` — true for
every count below `u64::MAX`, but not literally "always". -/
theorem claim_C8 (s : ServState) (k : String)
    (habs : limitsLookup s.config.job_limits k = none) :
    s.job_available k = decide (s.job_num k < s.job_limit k) ∧
    s.job_limit k = u64Mod - 1 ∧
    (s.job_available k = true ↔ s.job_num k < u64Mod - 1) := by
  have hlim : s.job_limit k = u64Mod - 1 := by
    simp [ServState.job_limit, habs]
  exact ⟨rfl, hlim, by simp [ServState.job_available, hlim]⟩

/-- Witness for C8 on a one-job registry with empty limit table. -/
theorem claim_C8_witness :
    (⟨[(0, prop0)], cfg0⟩ : ServState).job_available "Test" =
      decide ((⟨[(0, prop0)], cfg0⟩ : ServState).job_num "Test" <
        (⟨[(0, prop0)], cfg0⟩ : ServState).job_limit "Test") ∧
    (⟨[(0, prop0)], cfg0⟩ : ServState).job_limit "Test" = u64Mod - 1 ∧
    ((⟨[(0, prop0)], cfg0⟩ : ServState).job_available "Test" = true ↔
      (⟨[(0, prop0)], cfg0⟩ : ServState).job_num "Test" < u64Mod - 1) :=
  claim_C8 ⟨[(0, prop0)], cfg0⟩ "Test" (by decide)

/-- The counter after `n` enqueues from a fresh process is `n mod 2^64`. -/
theorem iterEnqueue_counter (config : Config) (prop : WorkerProp) :
    ∀ n, (iterEnqueue config prop n).counter = n % u64Mod := by
  intro n
  induction n with
  | zero => simp [iterEnqueue, World.init]
  | succ n ih =>
    have hstep : (iterEnqueue config prop (n + 1)).counter =
        ((iterEnqueue config prop n).counter + 1) % u64Mod := rfl
    have h2 : (1 : Nat) % u64Mod = 1 := Nat.mod_eq_of_lt (by norm_num [u64Mod])
    rw [hstep, ih, Nat.add_mod n 1, h2]

/-- The handle the `i`-th enqueue returns is `i mod 2^64`. -/
theorem issuedHandle_eq (config : Config) (prop : WorkerProp) (i : Nat) :
    issuedHandle config prop i = i % u64Mod := by
  have hstep : ((iterEnqueue config prop i).step (Op.enqueue prop)).1 =
      Output.poll
        (PollingState.Started ((iterEnqueue config prop i).counter % u64Mod)) :=
    rfl
  rw [issuedHandle, hstep, iterEnqueue_counter]
  simp [Nat.mod_mod_of_dvd]

/-- C7 counterexample: after the counter wraps, handles ARE reused: the
`2^64`-th enqueue returns the same handle (0) as the very first one, so the
issued handles are neither pairwise distinct nor strictly increasing. -/
theorem claim_C7_counterexample :
    issuedHandle cfg0 prop0 u64Mod = issuedHandle cfg0 prop0 0 ∧
    ¬ issuedHandle cfg0 prop0 0 < issuedHandle cfg0 prop0 u64Mod := by
  have h1 : issuedHandle cfg0 prop0 u64Mod = 0 := by
    rw [issuedHandle_eq]
    exact Nat.mod_self u64Mod
  have h2 : issuedHandle cfg0 prop0 0 = 0 := by
    rw [issuedHandle_eq]
    exact Nat.zero_mod u64Mod
  rw [h1, h2]
  exact ⟨rfl, Nat.lt_irrefl 0⟩

/-- Claim C7 (amended): the allocator issues `i mod 2^64` to the `i`-th
enqueue (atomic fetch-and-increment from 0, wrapping on overflow); before
the counter wraps — i.e. among the first `2^64` issuances — handles are
strictly increasing in issuance order and pairwise distinct, but reuse
begins as soon as the counter wraps. -/
theorem claim_C7 (config : Config) (prop : WorkerProp) (i j : Nat)
    (hij : i < j) (hj : j < u64Mod) :
    issuedHandle config prop i = i % u64Mod ∧
    issuedHandle config prop i < issuedHandle config prop j ∧
    issuedHandle config prop i ≠ issuedHandle config prop j := by
  have hi : i < u64Mod := lt_trans hij hj
  refine ⟨issuedHandle_eq config prop i, ?_, ?_⟩ <;>
    rw [issuedHandle_eq, issuedHandle_eq, Nat.mod_eq_of_lt hi,
      Nat.mod_eq_of_lt hj]
  · exact hij
  · exact Nat.ne_of_lt hij

/-- Witness for C7 at the first two issuances. -/
theorem claim_C7_witness :
    issuedHandle cfg0 prop0 0 = 0 % u64Mod ∧
    issuedHandle cfg0 prop0 0 < issuedHandle cfg0 prop0 1 ∧
    issuedHandle cfg0 prop0 0 ≠ issuedHandle cfg0 prop0 1 :=
  claim_C7 cfg0 prop0 0 1 (by decide) (by decide)

/-! ## Characterizations of the operations -/

/-- Polling a present handle whose channel holds `v` first: the `Done`
branch, spelled out. -/
theorem get_eq_done (s : ServState) (t n : Nat) (prop : WorkerProp)
    (v : Value) (rest : List Value)
    (hl : mapLookup s.workers t = some prop)
    (hm : prop.receiver.msgs = v :: rest) :
    s.get t n = (PollingState.Done v,
      { s with workers := mapErase (mapInsert s.workers t
          { prop with
              last_query := n
              receiver := { prop.receiver with msgs := rest } }) t }) := by
  have hr : prop.receiver.try_recv =
      (Except.ok v, { prop.receiver with msgs := rest }) := by
    simp [Receiver.try_recv, hm]
  simp [ServState.get, hl, hr]

/-- Polling a present handle whose channel is empty: `Pending` or
`Error(Disconnected)` according to the sender's liveness; only the
`last_query` stamp changes. -/
theorem get_eq_empty (s : ServState) (t n : Nat) (prop : WorkerProp)
    (hl : mapLookup s.workers t = some prop)
    (hm : prop.receiver.msgs = []) :
    s.get t n = ((if prop.receiver.connected then PollingState.Pending
        else PollingState.Error PollingError.Disconnected),
      { s with workers := (mapInsert s.workers t
          { prop with last_query := n }) }) := by
  cases hc : prop.receiver.connected
  · have hr : prop.receiver.try_recv =
        (Except.error TryRecvError.Disconnected, prop.receiver) := by
      simp [Receiver.try_recv, hm, hc]
    simp [ServState.get, hl, hr, hc]
  · have hr : prop.receiver.try_recv =
        (Except.error TryRecvError.Empty, prop.receiver) := by
      simp [Receiver.try_recv, hm, hc]
    simp [ServState.get, hl, hr, hc]

/-- A `Done` result can only come from a present record with a queued
message, and polling erases that record. -/
theorem get_done_src (s : ServState) (t n : Nat) (v : Value)
    (h : (s.get t n).1 = PollingState.Done v) :
    ∃ prop rest, mapLookup s.workers t = some prop ∧
      prop.receiver.msgs = v :: rest ∧
      mapLookup (s.get t n).2.workers t = none := by
  rcases hl : mapLookup s.workers t with _ | prop
  · rw [get_absent s t n hl] at h
    simp at h
  · rcases hm : prop.receiver.msgs with _ | ⟨v', rest⟩
    · rw [get_eq_empty s t n prop hl hm] at h
      rcases hc : prop.receiver.connected <;> simp [hc] at h
    · rw [get_eq_done s t n prop v' rest hl hm] at h
      have hv : v' = v := by simpa using h
      subst hv
      refine ⟨prop, rest, rfl, hm, ?_⟩
      rw [get_eq_done s t n prop v' rest hl hm]
      exact mapLookup_mapErase_self _ t

/-- Polling handle `t` never touches the binding of a different handle. -/
theorem get_lookup_ne (s : ServState) (t n tok : Nat) (hne : tok ≠ t) :
    mapLookup (s.get t n).2.workers tok = mapLookup s.workers tok := by
  rcases hl : mapLookup s.workers t with _ | prop
  · rw [get_absent s t n hl]
  · rcases hm : prop.receiver.msgs with _ | ⟨v, rest⟩
    · rw [get_eq_empty s t n prop hl hm]
      exact mapLookup_mapInsert_ne _ _ _ _ hne
    · rw [get_eq_done s t n prop v rest hl hm]
      rw [mapLookup_mapErase_ne _ _ _ hne]
      exact mapLookup_mapInsert_ne _ _ _ _ hne

/-- `remove` on a present handle, spelled out. -/
theorem remove_eq_present (s : ServState) (t : Nat) (prop : WorkerProp)
    (hl : mapLookup s.workers t = some prop) :
    s.remove t = (PollingState.Removed,
      { s with workers := mapErase s.workers t }, some prop.handle) := by
  simp [ServState.remove, hl]

/-- `remove` on an absent handle, spelled out. -/
theorem remove_eq_absent (s : ServState) (t : Nat)
    (hl : mapLookup s.workers t = none) :
    s.remove t = (PollingState.Error PollingError.NotExist, s, none) := by
  simp [ServState.remove, hl]

/-- After `remove t`, handle `t` is unbound (whether or not it was there). -/
theorem remove_lookup_self (s : ServState) (t : Nat) :
    mapLookup (s.remove t).2.1.workers t = none := by
  rcases hl : mapLookup s.workers t with _ | prop
  · rw [remove_eq_absent s t hl]
    exact hl
  · rw [remove_eq_present s t prop hl]
    exact mapLookup_mapErase_self _ t

/-- `remove t` never touches the binding of a different handle. -/
theorem remove_lookup_ne (s : ServState) (t tok : Nat) (hne : tok ≠ t) :
    mapLookup (s.remove t).2.1.workers tok = mapLookup s.workers tok := by
  rcases hl : mapLookup s.workers t with _ | prop
  · rw [remove_eq_absent s t hl]
  · rw [remove_eq_present s t prop hl]
    exact mapLookup_mapErase_ne _ _ _ hne

/-- The state `debug_info` returns: every record's receiver has suffered
one `try_recv`. -/
theorem debug_workers (s : ServState) :
    (s.debug_info).2.workers = s.workers.map
      (fun p => (p.1, { p.2 with receiver := (p.2.receiver.try_recv).2 })) :=
  rfl

/-- Binding-level view of the channel reads `debug_info` performs. -/
theorem debug_lookup (s : ServState) (tok : Nat) :
    mapLookup (s.debug_info).2.workers tok =
      (mapLookup s.workers tok).map
        (fun p => { p with receiver := (p.receiver.try_recv).2 }) := by
  rw [debug_workers]
  exact mapLookup_mapVal
    (fun q => { q with receiver := (q.receiver.try_recv).2 }) s.workers tok

/-! ## Membership and key-bound lemmas -/

theorem mem_mapInsert {α : Type} {p : Nat × α} {m : List (Nat × α)}
    {k : Nat} {v : α} (h : p ∈ mapInsert m k v) : p.1 = k ∨ p ∈ m := by
  rcases List.mem_cons.mp h with h1 | h2
  · left
    rw [h1]
  · right
    exact List.mem_of_mem_filter h2

theorem mem_mapErase {α : Type} {p : Nat × α} {m : List (Nat × α)} {k : Nat}
    (h : p ∈ mapErase m k) : p ∈ m :=
  List.mem_of_mem_filter h

/-- A bound key is a member, hence below the counter when `keysBelow`. -/
theorem keysBelow_lookup_lt {s : ServState} {c k : Nat} {v : WorkerProp}
    (hk : keysBelow s c) (h : mapLookup s.workers k = some v) : k < c := by
  rcases hf : s.workers.find? (fun p => p.1 == k) with _ | a
  · rw [mapLookup, hf] at h
    simp at h
  · have hmem : a ∈ s.workers := List.mem_of_find?_eq_some hf
    have hpk := List.find?_some hf
    have hak : a.1 = k := by simpa using hpk
    exact hak ▸ hk a hmem

/-- A record of the post-`get` registry is either an old record or the
updated record of the polled (hence present) handle. -/
theorem mem_get_workers {s : ServState} {t n : Nat} {p : Nat × WorkerProp}
    (hp : p ∈ (s.get t n).2.workers) :
    p ∈ s.workers ∨ (∃ q, mapLookup s.workers t = some q ∧ p.1 = t) := by
  rcases hl : mapLookup s.workers t with _ | prop
  · rw [get_absent s t n hl] at hp
    exact Or.inl hp
  · rcases hm : prop.receiver.msgs with _ | ⟨v, rest⟩
    · rw [get_eq_empty s t n prop hl hm] at hp
      rcases mem_mapInsert hp with h1 | h2
      · exact Or.inr ⟨prop, rfl, h1⟩
      · exact Or.inl h2
    · rw [get_eq_done s t n prop v rest hl hm] at hp
      rcases mem_mapInsert (mem_mapErase hp) with h1 | h2
      · exact Or.inr ⟨prop, rfl, h1⟩
      · exact Or.inl h2

theorem mem_remove_workers {s : ServState} {t : Nat} {p : Nat × WorkerProp}
    (hp : p ∈ (s.remove t).2.1.workers) : p ∈ s.workers := by
  rcases hl : mapLookup s.workers t with _ | prop
  · rw [remove_eq_absent s t hl] at hp
    exact hp
  · rw [remove_eq_present s t prop hl] at hp
    exact mem_mapErase hp

theorem mem_debug_workers {s : ServState} {p : Nat × WorkerProp}
    (hp : p ∈ (s.debug_info).2.workers) : ∃ q ∈ s.workers, p.1 = q.1 := by
  rw [debug_workers] at hp
  rcases List.mem_map.mp hp with ⟨q, hq, rfl⟩
  exact ⟨q, hq, rfl⟩

/-! ## `isDoneAt` reductions -/

theorem isDoneAt_enqueue (tok : Nat) (p : WorkerProp) (o : Output) :
    isDoneAt tok (Op.enqueue p) o = false := by
  cases o with
  | poll st => cases st <;> rfl
  | dbg s => rfl

theorem isDoneAt_remove (tok t : Nat) (o : Output) :
    isDoneAt tok (Op.remove t) o = false := by
  cases o with
  | poll st => cases st <;> rfl
  | dbg s => rfl

theorem isDoneAt_debug (tok : Nat) (o : Output) :
    isDoneAt tok Op.debug o = false := by
  cases o with
  | poll st => cases st <;> rfl
  | dbg s => rfl

theorem isDoneAt_get_ne (tok t n : Nat) (o : Output) (ht : t ≠ tok) :
    isDoneAt tok (Op.get t n) o = false := by
  cases o with
  | poll st => cases st <;> simp [isDoneAt, ht]
  | dbg s => rfl

/-- An observed `Done` pins the operation down: it was a poll of `tok` that
returned `Done`. -/
theorem isDoneAt_true {tok : Nat} {op : Op} {o : Output}
    (h : isDoneAt tok op o = true) :
    ∃ n v, op = Op.get tok n ∧ o = Output.poll (PollingState.Done v) := by
  cases op with
  | enqueue p => rw [isDoneAt_enqueue] at h; exact absurd h (by simp)
  | remove t => rw [isDoneAt_remove] at h; exact absurd h (by simp)
  | debug => rw [isDoneAt_debug] at h; exact absurd h (by simp)
  | get t n =>
    cases o with
    | dbg s => exact absurd h (by simp [isDoneAt])
    | poll st =>
      cases st with
      | Done v =>
        have ht : t = tok := by simpa [isDoneAt] using h
        exact ⟨n, v, by rw [ht], rfl⟩
      | Started x => exact absurd h (by simp [isDoneAt])
      | Pending => exact absurd h (by simp [isDoneAt])
      | Removed => exact absurd h (by simp [isDoneAt])
      | Error e => exact absurd h (by simp [isDoneAt])

/-! ## Step projections and run unfoldings -/

theorem step_enqueue_out (w : World) (p : WorkerProp) :
    (w.step (Op.enqueue p)).1 =
      Output.poll (PollingState.Started (w.counter % u64Mod)) := rfl

theorem step_enqueue_serv (w : World) (p : WorkerProp) :
    (w.step (Op.enqueue p)).2.serv =
      { w.serv with workers := mapInsert w.serv.workers (w.counter % u64Mod) p } :=
  rfl

theorem step_enqueue_counter (w : World) (p : WorkerProp) :
    (w.step (Op.enqueue p)).2.counter = (w.counter + 1) % u64Mod := rfl

theorem step_get_out (w : World) (t n : Nat) :
    (w.step (Op.get t n)).1 = Output.poll (w.serv.get t n).1 := rfl

theorem step_get_serv (w : World) (t n : Nat) :
    (w.step (Op.get t n)).2.serv = (w.serv.get t n).2 := rfl

theorem step_get_counter (w : World) (t n : Nat) :
    (w.step (Op.get t n)).2.counter = w.counter := rfl

theorem step_remove_serv (w : World) (t : Nat) :
    (w.step (Op.remove t)).2.serv = (w.serv.remove t).2.1 := rfl

theorem step_remove_counter (w : World) (t : Nat) :
    (w.step (Op.remove t)).2.counter = w.counter := rfl

theorem step_debug_serv (w : World) :
    (w.step Op.debug).2.serv = (w.serv.debug_info).2 := rfl

theorem step_debug_counter (w : World) :
    (w.step Op.debug).2.counter = w.counter := rfl

theorem doneCount_cons (w : World) (tok : Nat) (op : Op) (ops : List Op) :
    doneCount w tok (op :: ops) =
      (if isDoneAt tok op (w.step op).1 then 1 else 0) +
        doneCount (w.step op).2 tok ops := rfl

theorem step_enqueue_workers (w : World) (p : WorkerProp) :
    (w.step (Op.enqueue p)).2.serv.workers =
      mapInsert w.serv.workers (w.counter % u64Mod) p := rfl

/-- `try_recv` on an empty queue returns the receiver unchanged. -/
theorem try_recv_of_empty (r : Receiver) (hm : r.msgs = []) :
    (r.try_recv).2 = r := by
  cases hc : r.connected <;> simp [Receiver.try_recv, hm, hc]

/-- After a poll of a present-but-empty handle, its record is still bound,
with only the `last_query` stamp updated. -/
theorem get_lookup_self_empty (s : ServState) (t n : Nat) (prop : WorkerProp)
    (hl : mapLookup s.workers t = some prop)
    (hm : prop.receiver.msgs = []) :
    mapLookup (s.get t n).2.workers t =
      some { prop with last_query := n } := by
  rw [get_eq_empty s t n prop hl hm]
  exact mapLookup_mapInsert_self _ _ _

/-- Once a handle has no queued result (absent, or present with an empty
queue), no wrap-free run can ever observe `Done` for it: polls return
`Pending`/`Error`, nothing refills the one-shot channel, and fresh enqueues
cannot re-issue the handle before the counter wraps. -/
theorem neverDone (tok : Nat) (ops : List Op) : ∀ w : World,
    noResultAt w.serv tok → enqSafe w.counter tok ops →
    doneCount w tok ops = 0 := by
  induction ops with
  | nil =>
    intro w _ _
    rfl
  | cons op rest ih =>
    intro w hnr hsafe
    rw [doneCount_cons]
    cases op with
    | enqueue p =>
      have hcE : countEnq (Op.enqueue p :: rest) = countEnq rest + 1 := rfl
      rcases hsafe with h0 | ⟨htc, hcm⟩
      · rw [hcE] at h0
        omega
      · rw [hcE] at hcm
        have hclt : w.counter < u64Mod := by omega
        have hmod : w.counter % u64Mod = w.counter := Nat.mod_eq_of_lt hclt
        have hne : tok ≠ w.counter % u64Mod := by
          rw [hmod]
          omega
        have hnr' : noResultAt (w.step (Op.enqueue p)).2.serv tok := by
          intro q hq
          rw [step_enqueue_workers, mapLookup_mapInsert_ne _ _ _ _ hne] at hq
          exact hnr q hq
        have hsafe' : enqSafe (w.step (Op.enqueue p)).2.counter tok rest := by
          rw [step_enqueue_counter]
          by_cases h0r : countEnq rest = 0
          · exact Or.inl h0r
          · have hlt : w.counter + 1 < u64Mod := by omega
            rw [Nat.mod_eq_of_lt hlt]
            exact Or.inr ⟨by omega, by omega⟩
        rw [isDoneAt_enqueue]
        simpa using ih _ hnr' hsafe'
    | get t n =>
      have hsafe' : enqSafe (w.step (Op.get t n)).2.counter tok rest := hsafe
      by_cases htok : tok = t
      · subst htok
        rcases hl : mapLookup w.serv.workers tok with _ | prop
        · have hstep : w.serv.get tok n =
              (PollingState.Error PollingError.NotExist, w.serv) :=
            get_absent _ _ _ hl
          have hd : isDoneAt tok (Op.get tok n) (w.step (Op.get tok n)).1 =
              false := by
            rw [step_get_out, hstep]
            rfl
          rw [hd]
          have hnr' : noResultAt (w.step (Op.get tok n)).2.serv tok := by
            intro q hq
            rw [step_get_serv, hstep] at hq
            exact hnr q hq
          simpa using ih _ hnr' hsafe'
        · have hm0 : prop.receiver.msgs = [] := hnr prop hl
          have hd : isDoneAt tok (Op.get tok n) (w.step (Op.get tok n)).1 =
              false := by
            rw [step_get_out, get_eq_empty w.serv tok n prop hl hm0]
            cases hc : prop.receiver.connected <;> simp [hc, isDoneAt]
          rw [hd]
          have hnr' : noResultAt (w.step (Op.get tok n)).2.serv tok := by
            intro q hq
            rw [step_get_serv,
              get_lookup_self_empty w.serv tok n prop hl hm0] at hq
            injection hq with hq2
            rw [← hq2]
            exact hm0
          simpa using ih _ hnr' hsafe'
      · have hd := isDoneAt_get_ne tok t n (w.step (Op.get t n)).1
          (fun h => htok h.symm)
        rw [hd]
        have hnr' : noResultAt (w.step (Op.get t n)).2.serv tok := by
          intro q hq
          rw [step_get_serv, get_lookup_ne w.serv t n tok htok] at hq
          exact hnr q hq
        simpa using ih _ hnr' hsafe'
    | remove t =>
      have hsafe' : enqSafe (w.step (Op.remove t)).2.counter tok rest := hsafe
      rw [isDoneAt_remove]
      have hnr' : noResultAt (w.step (Op.remove t)).2.serv tok := by
        intro q hq
        rw [step_remove_serv] at hq
        by_cases htok : tok = t
        · subst htok
          rw [remove_lookup_self] at hq
          simp at hq
        · rw [remove_lookup_ne _ _ _ htok] at hq
          exact hnr q hq
      simpa using ih _ hnr' hsafe'
    | debug =>
      have hsafe' : enqSafe (w.step Op.debug).2.counter tok rest := hsafe
      rw [isDoneAt_debug]
      have hnr' : noResultAt (w.step Op.debug).2.serv tok := by
        intro q hq
        rw [step_debug_serv, debug_lookup] at hq
        rcases hl : mapLookup w.serv.workers tok with _ | p0
        · rw [hl] at hq
          simp at hq
        · rw [hl] at hq
          have hm0 : p0.receiver.msgs = [] := hnr p0 hl
          simp only [Option.map_some'] at hq
          injection hq with hq2
          rw [← hq2]
          show (p0.receiver.try_recv).2.msgs = []
          rw [try_recv_of_empty p0.receiver hm0]
          exact hm0
      simpa using ih _ hnr' hsafe'

/-- Along any wrap-free run from a state whose registered keys are below
the counter, `Done` is observed at most once for any given handle. -/
theorem atMostOneDone (tok : Nat) (ops : List Op) : ∀ w : World,
    countEnq ops = 0 ∨
      (keysBelow w.serv w.counter ∧ w.counter + countEnq ops ≤ u64Mod) →
    doneCount w tok ops ≤ 1 := by
  induction ops with
  | nil =>
    intro w _
    simp [doneCount]
  | cons op rest ih =>
    intro w hinv
    rw [doneCount_cons]
    cases hd : isDoneAt tok op (w.step op).1 with
    | true =>
      obtain ⟨n, v, rfl, hout⟩ := isDoneAt_true hd
      rw [step_get_out] at hout
      injection hout with hres
      obtain ⟨prop, vrest, hl, hm, hafter⟩ := get_done_src w.serv tok n v hres
      have h0 : doneCount (w.step (Op.get tok n)).2 tok rest = 0 := by
        apply neverDone
        · intro q hq
          rw [step_get_serv, hafter] at hq
          simp at hq
        · by_cases h0r : countEnq rest = 0
          · exact Or.inl h0r
          · rcases hinv with hz | ⟨hk, hcm⟩
            · exact absurd hz h0r
            · exact Or.inr ⟨keysBelow_lookup_lt hk hl, hcm⟩
      rw [h0]
      simp
    | false =>
      have hinv' : countEnq rest = 0 ∨
          (keysBelow (w.step op).2.serv (w.step op).2.counter ∧
            (w.step op).2.counter + countEnq rest ≤ u64Mod) := by
        by_cases h0r : countEnq rest = 0
        · exact Or.inl h0r
        · cases op with
          | enqueue p =>
            rcases hinv with hz | ⟨hk, hcm⟩
            · rw [show countEnq (Op.enqueue p :: rest) = countEnq rest + 1
                from rfl] at hz
              omega
            · rw [show countEnq (Op.enqueue p :: rest) = countEnq rest + 1
                from rfl] at hcm
              have hclt : w.counter < u64Mod := by omega
              have hlt : w.counter + 1 < u64Mod := by
                have hpos : 0 < countEnq rest := Nat.pos_of_ne_zero h0r
                omega
              refine Or.inr ⟨?_, ?_⟩
              · intro q hq
                rw [step_enqueue_workers] at hq
                rw [step_enqueue_counter, Nat.mod_eq_of_lt hlt]
                rcases mem_mapInsert hq with h1 | h2
                · rw [h1, Nat.mod_eq_of_lt hclt]
                  omega
                · exact Nat.lt_trans (hk q h2) (by omega)
              · rw [step_enqueue_counter, Nat.mod_eq_of_lt hlt]
                omega
          | get t n =>
            rcases hinv with hz | ⟨hk, hcm⟩
            · exact absurd hz h0r
            · refine Or.inr ⟨?_, hcm⟩
              intro q hq
              rw [step_get_serv] at hq
              rcases mem_get_workers hq with h1 | ⟨p2, hl2, hq1⟩
              · exact hk q h1
              · rw [hq1]
                exact keysBelow_lookup_lt hk hl2
          | remove t =>
            rcases hinv with hz | ⟨hk, hcm⟩
            · exact absurd hz h0r
            · refine Or.inr ⟨?_, hcm⟩
              intro q hq
              rw [step_remove_serv] at hq
              exact hk q (mem_remove_workers hq)
          | debug =>
            rcases hinv with hz | ⟨hk, hcm⟩
            · exact absurd hz h0r
            · refine Or.inr ⟨?_, hcm⟩
              intro q hq
              rw [step_debug_serv] at hq
              obtain ⟨q2, hq2, hq1⟩ := mem_debug_workers hq
              rw [hq1]
              exact hk q2 hq2
      have hrest := ih _ hinv'
      simpa using hrest

/-- Claim C1: polling a present handle whose channel holds `v` returns
`Done v` and erases the record as a side effect, so the next poll of the
same handle returns `Error(NotExist)`; moreover along any wrap-free run
(registered keys below the counter and at most `2^64 - counter` enqueues),
`Done` is observed at most once for any given handle. -/
theorem claim_C1 (s : ServState) (tok now now2 : Nat) (prop : WorkerProp)
    (v : Value) (vrest : List Value)
    (hp : mapLookup s.workers tok = some prop)
    (hmsgs : prop.receiver.msgs = v :: vrest)
    (w : World) (tok2 : Nat) (ops : List Op)
    (hinv : countEnq ops = 0 ∨
      (keysBelow w.serv w.counter ∧ w.counter + countEnq ops ≤ u64Mod)) :
    (s.get tok now).1 = PollingState.Done v ∧
    mapLookup (s.get tok now).2.workers tok = none ∧
    ((s.get tok now).2.get tok now2).1 =
      PollingState.Error PollingError.NotExist ∧
    doneCount w tok2 ops ≤ 1 := by
  have h2 : mapLookup (s.get tok now).2.workers tok = none := by
    rw [get_eq_done s tok now prop v vrest hp hmsgs]
    exact mapLookup_mapErase_self _ tok
  refine ⟨?_, h2, ?_, atMostOneDone tok2 ops w hinv⟩
  · rw [get_eq_done s tok now prop v vrest hp hmsgs]
  · rw [get_absent _ tok now2 h2]

/-- Witness for C1: a completed `"Test"` job is polled to `Done("Ok!!!")`,
then polled again to `Error(NotExist)`. -/
theorem claim_C1_witness :
    ((⟨[(0, propDone)], cfg0⟩ : ServState).get 0 1).1 =
      PollingState.Done (Value.str "Ok!!!") ∧
    mapLookup ((⟨[(0, propDone)], cfg0⟩ : ServState).get 0 1).2.workers 0 =
      none ∧
    (((⟨[(0, propDone)], cfg0⟩ : ServState).get 0 1).2.get 0 2).1 =
      PollingState.Error PollingError.NotExist ∧
    doneCount ⟨1, ⟨[(0, propDone)], cfg0⟩⟩ 0 [Op.get 0 1, Op.get 0 2] ≤ 1 :=
  claim_C1 ⟨[(0, propDone)], cfg0⟩ 0 1 2 propDone (Value.str "Ok!!!") []
    (by decide) (by rfl) ⟨1, ⟨[(0, propDone)], cfg0⟩⟩ 0
    [Op.get 0 1, Op.get 0 2] (Or.inl rfl)

/-- C5 counterexample: a `"Test"` job has sent `"Ok!!!"` and exited; a
plain poll would return `Done("Ok!!!")`, but after one `debug_info` the
poll returns `Error(Disconnected)` — NOT `Pending` — because the sender is
gone.  "Every subsequent poll observes Pending forever" is therefore false
as stated. -/
theorem claim_C5_counterexample :
    ((⟨[(0, propDone)], cfg0⟩ : ServState).get 0 1).1 =
      PollingState.Done (Value.str "Ok!!!") ∧
    (((⟨[(0, propDone)], cfg0⟩ : ServState).debug_info).2.get 0 1).1 =
      PollingState.Error PollingError.Disconnected ∧
    (((⟨[(0, propDone)], cfg0⟩ : ServState).debug_info).2.get 0 1).1 ≠
      PollingState.Pending := by
  refine ⟨by rfl, by rfl, by decide⟩

/-- Claim C5 (amended): `debug_info` performs the same consuming
`try_recv` on every registered channel that `poll` performs; when it eats a
job's only result message, the value is lost for good: the record remains
(with an emptied channel), a subsequent poll returns `Pending` while the
sender is still connected and `Error(Disconnected)` once it is gone — and
no later wrap-free run of operations ever observes `Done` for that
handle. -/
theorem claim_C5 (s : ServState) (tok now : Nat) (prop : WorkerProp)
    (v : Value)
    (hp : mapLookup s.workers tok = some prop)
    (hone : prop.receiver.msgs = [v])
    (c : Nat) (ops : List Op)
    (hsafe : enqSafe c tok ops) :
    mapLookup (s.debug_info).2.workers tok =
      some { prop with
        receiver := { msgs := [], connected := prop.receiver.connected } } ∧
    ((s.debug_info).2.get tok now).1 =
      (if prop.receiver.connected then PollingState.Pending
        else PollingState.Error PollingError.Disconnected) ∧
    mapLookup ((s.debug_info).2.get tok now).2.workers tok =
      some { prop with
        receiver := { msgs := [], connected := prop.receiver.connected }
        last_query := now } ∧
    doneCount ⟨c, (s.debug_info).2⟩ tok ops = 0 := by
  have hrecv : prop.receiver.try_recv =
      (Except.ok v, { prop.receiver with msgs := [] }) := by
    simp [Receiver.try_recv, hone]
  have hdbg : mapLookup (s.debug_info).2.workers tok =
      some { prop with
        receiver := { msgs := [], connected := prop.receiver.connected } } := by
    rw [debug_lookup, hp]
    simp [hrecv]
  have hget := get_eq_empty (s.debug_info).2 tok now
    { prop with
      receiver := { msgs := [], connected := prop.receiver.connected } }
    hdbg rfl
  refine ⟨hdbg, ?_, ?_, ?_⟩
  · rw [hget]
  · exact get_lookup_self_empty (s.debug_info).2 tok now _ hdbg rfl
  · apply neverDone
    · intro q hq
      have hq2 : mapLookup (s.debug_info).2.workers tok = some q := hq
      rw [hdbg] at hq2
      injection hq2 with hq3
      rw [← hq3]
    · exact hsafe

/-- Witness for C5: `debug_info` eats the sent `"Ok!!!"`; the next poll is
`Error(Disconnected)`, the record stays, and `Done` never appears again. -/
theorem claim_C5_witness :
    mapLookup ((⟨[(0, propDone)], cfg0⟩ : ServState).debug_info).2.workers 0 =
      some { propDone with
        receiver := { msgs := [], connected := propDone.receiver.connected } } ∧
    (((⟨[(0, propDone)], cfg0⟩ : ServState).debug_info).2.get 0 3).1 =
      (if propDone.receiver.connected then PollingState.Pending
        else PollingState.Error PollingError.Disconnected) ∧
    mapLookup
      ((((⟨[(0, propDone)], cfg0⟩ : ServState).debug_info).2.get 0 3)).2.workers
      0 =
      some { propDone with
        receiver := { msgs := [], connected := propDone.receiver.connected }
        last_query := 3 } ∧
    doneCount ⟨1, ((⟨[(0, propDone)], cfg0⟩ : ServState).debug_info).2⟩ 0
      [Op.get 0 4] = 0 :=
  claim_C5 ⟨[(0, propDone)], cfg0⟩ 0 3 propDone (Value.str "Ok!!!")
    (by decide) (by rfl) 1 [Op.get 0 4] (Or.inl rfl)

/-- Claim C10: `remove` on a handle whose job already sent its (unread)
result still removes the record and fires the cancellation without ever
looking at the channel, so the sent value is lost: no later wrap-free run
of operations observes `Done` for that handle. -/
theorem claim_C10 (s : ServState) (tok : Nat) (prop : WorkerProp)
    (v : Value) (vrest : List Value)
    (hp : mapLookup s.workers tok = some prop)
    (_hmsgs : prop.receiver.msgs = v :: vrest)
    (c : Nat) (ops : List Op)
    (hsafe : enqSafe c tok ops) :
    (s.remove tok).1 = PollingState.Removed ∧
    (s.remove tok).2.2 = some prop.handle ∧
    mapLookup (s.remove tok).2.1.workers tok = none ∧
    doneCount ⟨c, (s.remove tok).2.1⟩ tok ops = 0 := by
  have h1 := remove_eq_present s tok prop hp
  refine ⟨by rw [h1], by rw [h1], remove_lookup_self s tok, ?_⟩
  apply neverDone
  · intro q hq
    have hq2 : mapLookup (s.remove tok).2.1.workers tok = some q := hq
    rw [remove_lookup_self] at hq2
    simp at hq2
  · exact hsafe

/-- Witness for C10: removing a completed-but-unread `"Test"` job loses
`"Ok!!!"` forever. -/
theorem claim_C10_witness :
    ((⟨[(0, propDone)], cfg0⟩ : ServState).remove 0).1 =
      PollingState.Removed ∧
    ((⟨[(0, propDone)], cfg0⟩ : ServState).remove 0).2.2 =
      some propDone.handle ∧
    mapLookup ((⟨[(0, propDone)], cfg0⟩ : ServState).remove 0).2.1.workers 0 =
      none ∧
    doneCount ⟨1, ((⟨[(0, propDone)], cfg0⟩ : ServState).remove 0).2.1⟩ 0
      [Op.get 0 5] = 0 :=
  claim_C10 ⟨[(0, propDone)], cfg0⟩ 0 propDone (Value.str "Ok!!!") []
    (by decide) (by rfl) 1 [Op.get 0 5] (Or.inl rfl)
